import Mathlib

/-!
Verification of the DQN training loop of `main_processes.py` (class `ProgramManager`).

The definitions below are a shallow embedding of the Python source.  Pixel values,
rewards and Q-values are rationals; machine floats carry exact decimal literals here,
so all arithmetic identities of the source hold verbatim.  External collaborators
(the game environment, PIL resizing, torch network internals, file I/O) enter the
model only through their contracts, as the specification's scope section prescribes.
-/

/-! ## Frame preprocessing (`ProgramManager.frame_preprocess`, lines 45-64) -/

/-- A preprocessed game frame: rows of rational pixel values. -/
abbrev Frame := List (List ℚ)

/-- Lines 62-63: `out[out <= 1.] = 0.0; out[out > 1.] = 1.0` applied to one pixel. -/
def binarize (v : ℚ) : ℚ := if v ≤ 1 then 0 else 1

/-- Lines 60-64.  `PIL.Image.resize((72,128))` and `convert(mode='L')` are external
library calls (the spec treats frame decoding/resizing mechanics as an external
collaborator); on a frame that is already grayscale at the target resolution
(128 rows of 72 pixels) they are the identity, which is exactly the situation the
idempotence property quantifies over.  The embedded preprocessor is therefore the
per-pixel binarization applied to such a frame. -/
def frame_preprocess (frame : Frame) : Frame :=
  frame.map fun row => row.map binarize

/-! ## Training settings (constructor arguments read by `dqn_training_process`) -/

/-- The `epsilon_greedy` sub-setting: `init_e` and `final_e` (lines 164, 270-273). -/
structure EpsilonGreedySetting where
  init_e : ℚ
  final_e : ℚ
deriving DecidableEq

/-- The fields of `self.training_setting` that `dqn_training_process` reads.
`advanced_method` is a collection probed with membership tests
(`'Double DQN' in ...`, `'Dueling DQN' in ...`, lines 95 and 218); the two tests are
modelled as the booleans `double_dqn` and `dueling_dqn`.  `cuda`, `lr` and
`model_path` only parameterize external collaborators (device, optimizer, file I/O)
and are omitted. -/
structure TrainingSetting where
  gamma : ℚ
  batch_size : ℕ
  memory_size : ℕ
  observation : ℕ
  max_episode : ℕ
  exploration : ℕ
  epsilon_greedy : EpsilonGreedySetting
  update_target_qnetwork_freq : ℕ
  test_model_freq : ℕ
  save_checkpoint_freq : ℕ
  resume : Bool
  double_dqn : Bool
  dueling_dqn : Bool
deriving DecidableEq

/-! ## Epsilon decay (lines 164 and 269-273) -/

/-- Lines 270-273: after each episode, if `epsilon > final_e` then
`epsilon -= (init_e - final_e) / exploration`, else epsilon is left unchanged. -/
def epsilon_decay (s : TrainingSetting) (e : ℚ) : ℚ :=
  if s.epsilon_greedy.final_e < e then
    e - (s.epsilon_greedy.init_e - s.epsilon_greedy.final_e) / (s.exploration : ℚ)
  else e

/-- The epsilon value in force during episode `n`: line 164 initializes it to
`init_e` before the episode loop, and `epsilon_decay` runs once at the end of each
episode. -/
def epsilon_after (s : TrainingSetting) : ℕ → ℚ
  | 0 => s.epsilon_greedy.init_e
  | n + 1 => epsilon_decay s (epsilon_after s n)

/-- Concrete instance of the epsilon-schedule theorem: `init_e = 1`,
`final_e = 1/10`, decay horizon 3 episodes, checked at the second episode end. -/
def sampleEpsSetting : TrainingSetting where
  gamma := 99/100
  batch_size := 32
  memory_size := 5000
  observation := 100
  max_episode := 300000
  exploration := 3
  epsilon_greedy := ⟨1, 1/10⟩
  update_target_qnetwork_freq := 100
  test_model_freq := 100
  save_checkpoint_freq := 2000
  resume := false
  double_dqn := false
  dueling_dqn := false

/-! ## C2: target-network synchronization cadence (lines 162, 167-168, 186-187, 252-257)

The pieces of training-loop state that govern the synchronization decision are the
count of environment steps taken inside the episode loop (`global`), the agent's
per-episode step counter `variable_qnetwork.time_step` (`time_step`), and the global
step index at which `target_qnetwork` was last deep-copied from `variable_qnetwork`
(`last_sync`).  The variable network's parameters change at every optimizer step, so
they are modelled as an abstract function `p` of the global step count; the target
network's parameters are then `p last_sync`. -/

structure SyncState where
  global : ℕ
  time_step : ℕ
  last_sync : ℕ
deriving DecidableEq

/-- One pass through the inner training loop body, as far as the synchronization
state is concerned: line 187 increments `time_step`, and lines 256-257 deep-copy
the target network whenever `time_step % update_target_qnetwork_freq == 0`. -/
def sync_step (freq : ℕ) (st : SyncState) : SyncState :=
  if (st.time_step + 1) % freq = 0 then
    ⟨st.global + 1, st.time_step + 1, st.global + 1⟩
  else
    ⟨st.global + 1, st.time_step + 1, st.last_sync⟩

/-- Run `n` environment steps of the inner loop. -/
def run_steps (freq : ℕ) : ℕ → SyncState → SyncState
  | 0, st => st
  | n + 1, st => run_steps freq n (sync_step freq st)

/-- Line 168: `variable_qnetwork.time_step = 0` at the start of every episode. -/
def episode_start (st : SyncState) : SyncState := ⟨st.global, 0, st.last_sync⟩

/-- Run a whole training run, episode lengths given by `episodes`. -/
def run_episodes (freq : ℕ) (episodes : List ℕ) (st : SyncState) : SyncState :=
  episodes.foldl (fun s len => run_steps freq len (episode_start s)) st

/-- Line 162: the target network is created as a deep copy of the variable network
before the episode loop, so global step 0 is a synchronization point. -/
def init_sync_state : SyncState := ⟨0, 0, 0⟩

/-! ## Minibatch target computation (lines 189-236)

The action set has size 2 (flap / no-flap), so a network's output for one state is a
pair of Q-values; a network itself is a function from states to such pairs.  The
minibatch entries are the stored transitions (`data[0..4]` in lines 191-194 and
`minibatch[i][4]` in lines 229/235).  `memory.sample(batch_size)` returns exactly
`batch_size` transitions, so the Python loop `for i in range(batch_size)` visits
every minibatch position exactly once; the embedding maps over the minibatch. -/

/-- Per-state network output: Q-value of action 0 and of action 1. -/
abbrev QValues := ℚ × ℚ

/-- The value `torch.max(q, dim=1)` extracts at one row. -/
def qmax (q : QValues) : ℚ := max q.1 q.2

/-- The index `torch.max(q, dim=1)` extracts at one row (line 224); `torch` leaves
the tie case unspecified, the embedding picks index 0 then, and every theorem below
only relies on tie-free instances. -/
def qargmax (q : QValues) : ℕ := if q.1 < q.2 then 1 else 0

/-- Row indexing `q_table[i, j]` for a two-action row. -/
def qat (q : QValues) (i : ℕ) : ℚ := if i = 0 then q.1 else q.2

/-- One stored transition `(state, action, reward, next_state, terminal)`
(lines 191-194; `minibatch[i][4]` is the terminal flag). -/
structure Transition (σ : Type) where
  state : σ
  action : List ℚ
  reward : ℚ
  next_state : σ
  terminal : Bool

instance {σ : Type} [Inhabited σ] : Inhabited (Transition σ) :=
  ⟨⟨default, [], 0, default, false⟩⟩

/-- The vanilla (non-Double-DQN) branch, lines 209 and 231-236: `y` starts as the
reward batch and, for non-terminal transitions, `gamma * max_q` is added — where
`max_q` comes from `q_value_next = variable_qnetwork.net(next_state_batch_var)`
(line 205).  Both networks are in scope in this branch, but `target_qnetwork` is
never consulted: the maximization runs over the VARIABLE network's Q-values. -/
def vanilla_y {σ : Type} (gamma : ℚ) (variable_net : σ → QValues)
    (_target_net : σ → QValues) (minibatch : List (Transition σ)) : List ℚ :=
  minibatch.map fun tr =>
    if tr.terminal then tr.reward
    else tr.reward + gamma * qmax (variable_net tr.next_state)

/-- The vanilla DQN target as the specification states it (spec-side definition,
kept for comparison with `vanilla_y`): `reward` for terminal transitions, else
`reward + gamma * max` over the TARGET network's Q-values at the next state. -/
def vanilla_y_spec {σ : Type} (gamma : ℚ) (target_net : σ → QValues)
    (minibatch : List (Transition σ)) : List ℚ :=
  minibatch.map fun tr =>
    if tr.terminal then tr.reward
    else tr.reward + gamma * qmax (target_net tr.next_state)

/-- The Double DQN branch, lines 218-230: `max_q_index` is the argmax of
`q_value_next`, i.e. of the VARIABLE network's Q-values at the next state
(line 205); `recalculated_q` reads the TARGET network's Q-table at that index
(lines 226-227); for non-terminal transitions `gamma * recalculated_q` is added to
the reward (lines 228-230). -/
def double_y {σ : Type} (gamma : ℚ) (variable_net : σ → QValues)
    (target_net : σ → QValues) (minibatch : List (Transition σ)) : List ℚ :=
  minibatch.map fun tr =>
    if tr.terminal then tr.reward
    else tr.reward + gamma * qat (target_net tr.next_state)
      (qargmax (variable_net tr.next_state))

/-! ## Resume initialization (lines 86, 100-121, 164)

A checkpoint is a Python dict; a `checkpoint.get(key, default)` lookup is modelled
by an `Option` field read with `Option.getD`.  The `state_dict` entry (opaque
network weights) and the file I/O itself are external collaborators per the spec's
scope section and are not part of the model. -/

inductive NetStruct where
  | NORMAL
  | DUELING
deriving DecidableEq

/-- The checkpoint record fields written at lines 292-298/312-318 plus the legacy
`best_time_step` field name the spec mentions for old checkpoints. -/
structure Checkpoint where
  episode : Option ℕ
  epsilon : Option ℚ
  network_structure : Option NetStruct
  time_step : Option ℚ
  best_time_step : Option ℚ
deriving DecidableEq

/-- The run-start state that the resume block determines. -/
structure RunInit where
  best_time_step : ℚ
  epsilon : ℚ
  net_struct : NetStruct
deriving DecidableEq

/-- Lines 86, 92-95, 100-121 and 164: `best_time_step` starts at `0.`; when
`resume` is set, line 116 reads `checkpoint.get('time_step', 0)` and line 120 reads
`checkpoint.get('network_structure', NetStruct.NORMAL)`; line 164 sets
`epsilon = training_setting.epsilon_greedy.init_e` unconditionally, after the
resume block. -/
def dqn_init (s : TrainingSetting) (checkpoint : Checkpoint) : RunInit :=
  if s.resume then
    { best_time_step := checkpoint.time_step.getD 0
      epsilon := s.epsilon_greedy.init_e
      net_struct := checkpoint.network_structure.getD NetStruct.NORMAL }
  else
    { best_time_step := 0
      epsilon := s.epsilon_greedy.init_e
      net_struct := if s.dueling_dqn then NetStruct.DUELING else NetStruct.NORMAL }

/-- A training setting with `resume` set, used to instantiate the resume theorems. -/
def resumeSetting : TrainingSetting :=
  { sampleEpsSetting with resume := true }

/-! ## Best-checkpoint promotion (lines 281-305)

At each test-gated episode the model is evaluated and, if `avg_time_step >
best_time_step` (line 290), `best_time_step` is updated and the checkpoint is
promoted to "best" (saved both in the run folder and as `model_best.pth.tar`).
The function below folds this decision over the run's successive evaluation
results, returning the final `best_time_step` together with the list of promoted
fitness values in run order.  The initial accumulator is `0.` (line 86) or, on
resume, the loaded baseline (line 116). -/

def run_promotions (best : ℚ) : List ℚ → ℚ × List ℚ
  | [] => (best, [])
  | avg :: rest =>
    if best < avg then
      let r := run_promotions avg rest
      (r.1, avg :: r.2)
    else
      run_promotions best rest

/-! ## Evaluation protocol (`evaluate_avg_time_step`, lines 330-374)

The evaluation plays `test_episode_num` complete greedy episodes on a fresh game
instance.  The environment is external: each episode is modelled by the list of
preprocessed observation frames returned by its non-terminal `frame_step` calls
(the loop breaks on the terminal step before storing its frame or incrementing the
counter, lines 358-364), so the episode's survival-step count is that list's
length.  The two pieces of agent state the function touches are `time_step` and
`current_state`. -/

/-- The agent state read and written by the evaluation loop.  The real
`FlappyAgent` also owns the replay memory and the network; evaluation touches
neither (no transition storage, no learning), so they do not appear here. -/
structure FlappyAgent where
  time_step : ℕ
  current_state : List Frame
deriving DecidableEq

/-- Modelled from the spec: `FlappyAgent.init_state` lives in
`rl_module/agent.py`, which is not among the given sources.  The spec describes the
agent state as "a stack of the last N preprocessed frames" owned by the agent and
freshly created here; the model takes it to be `stack_size` copies of a fixed blank
frame. -/
def agent_init_state (stack_size : ℕ) (blank : Frame) : List Frame :=
  List.replicate stack_size blank

/-- Lines 362-363 (and 431-432): slide the stacked-frame window —
`np.append(current_state[1:], frame)`. -/
def push_frame (stack : List Frame) (f : Frame) : List Frame :=
  stack.drop 1 ++ [f]

/-- Lines 352-364, one test case: `agent.time_step = 0`, `agent.init_state()`, then
for every surviving step the observation frame is pushed onto the stack and
`agent.increase_time_step()` runs.  The incoming agent state is completely
overwritten. -/
def run_eval_episode (stack_size : ℕ) (blank : Frame) (ep : List Frame) : FlappyAgent :=
  ep.foldl (fun a f => ⟨a.time_step + 1, push_frame a.current_state f⟩)
    ⟨0, agent_init_state stack_size blank⟩

/-- Lines 351-365: iterate the test cases on the passed agent, collecting
`agent.time_step` after each episode. -/
def evaluate_loop (stack_size : ℕ) (blank : Frame) :
    FlappyAgent → List (List Frame) → List ℕ × FlappyAgent
  | a, [] => ([], a)
  | _, ep :: rest =>
    let a2 := run_eval_episode stack_size blank ep
    let r := evaluate_loop stack_size blank a2 rest
    (a2.time_step :: r.1, r.2)

/-- Default episode count of `evaluate_avg_time_step` (signature, line 330). -/
def test_episode_num : ℕ := 2

/-- Lines 346-374: run the evaluation episodes, sort the collected step counts
(line 367 — the trimmed variant of line 366 is commented out in the source), and
return their mean, along with the agent as the loop leaves it.  In the Python
source the agent is mutated in place; the explicit-state embedding returns it. -/
def evaluate_avg_time_step (stack_size : ℕ) (blank : Frame) (agent : FlappyAgent)
    (episodes : List (List Frame)) : ℚ × FlappyAgent :=
  let r := evaluate_loop stack_size blank agent episodes
  let time_step_list := r.1.mergeSort (fun x y => decide (x ≤ y))
  ((time_step_list.sum : ℚ) / (time_step_list.length : ℚ), r.2)

/-! ## Theorems -/

/-- Closed form of the schedule: after `n` completed episodes, epsilon equals
`init_e - min n exploration * delta`. -/
theorem epsilon_after_closed_form (s : TrainingSetting)
    (hfi : s.epsilon_greedy.final_e ≤ s.epsilon_greedy.init_e)
    (hex : 0 < s.exploration) (n : ℕ) :
    epsilon_after s n = s.epsilon_greedy.init_e -
      (min n s.exploration : ℕ) *
        ((s.epsilon_greedy.init_e - s.epsilon_greedy.final_e) / (s.exploration : ℚ)) := by
  set i := s.epsilon_greedy.init_e with hi
  set f := s.epsilon_greedy.final_e with hf
  set ex := s.exploration with hexdef
  set d : ℚ := (i - f) / (ex : ℚ) with hd
  have hex0 : (ex : ℚ) ≠ 0 := by positivity
  have hexd : (ex : ℚ) * d = i - f := by
    rw [hd]; field_simp
  have hdnn : 0 ≤ d := by
    rw [hd]
    apply div_nonneg (by linarith) (by positivity)
  induction n with
  | zero => simp [epsilon_after]
  | succ n ih =>
    rw [epsilon_after, ih, epsilon_decay]
    rcases lt_or_le n ex with hlt | hle
    · -- still in the decay phase: min n ex = n
      have hmn : min n ex = n := min_eq_left (le_of_lt hlt)
      have hmn1 : min (n + 1) ex = n + 1 := min_eq_left hlt
      rw [hmn, hmn1]
      rcases eq_or_lt_of_le hdnn with hd0 | hdpos
      · -- init_e = final_e: epsilon is constantly final_e and never decremented
        have : i = f := by
          have : (ex : ℚ) * d = 0 := by rw [← hd0]; ring
          have := hexd ▸ this
          linarith
        simp only [← hd0]
        rw [if_neg (by linarith)]
        push_cast; ring
      · have hcond : f < i - (n : ℚ) * d := by
          have : (n : ℚ) * d < (ex : ℚ) * d := by
            apply mul_lt_mul_of_pos_right _ hdpos
            exact_mod_cast hlt
          linarith [hexd]
        rw [if_pos (by linarith)]
        push_cast; ring
    · -- decay finished: epsilon sits exactly at final_e
      have hmn : min n ex = ex := min_eq_right hle
      have hmn1 : min (n + 1) ex = ex := min_eq_right (le_trans hle (Nat.le_succ n))
      rw [hmn, hmn1]
      have hval : i - (ex : ℚ) * d = f := by linarith [hexd]
      rw [if_neg (by linarith)]

/-- C3: across a run, per-episode epsilon values form a non-increasing sequence;
each episode end decrements epsilon by the fixed linear delta at most once (it is
either left unchanged or reduced by exactly `(init_e - final_e)/exploration`); and
epsilon never drops strictly below `final_e`. -/
theorem epsilon_schedule_props (s : TrainingSetting)
    (hfi : s.epsilon_greedy.final_e ≤ s.epsilon_greedy.init_e)
    (hex : 0 < s.exploration) (n : ℕ) :
    epsilon_after s (n + 1) ≤ epsilon_after s n ∧
    s.epsilon_greedy.final_e ≤ epsilon_after s n ∧
    (epsilon_after s (n + 1) = epsilon_after s n ∨
      epsilon_after s (n + 1) = epsilon_after s n -
        (s.epsilon_greedy.init_e - s.epsilon_greedy.final_e) / (s.exploration : ℚ)) := by
  have hd : 0 ≤ (s.epsilon_greedy.init_e - s.epsilon_greedy.final_e) / (s.exploration : ℚ) := by
    apply div_nonneg (by linarith) (by positivity)
  have hcf := epsilon_after_closed_form s hfi hex
  have hexd : (s.exploration : ℚ) *
      ((s.epsilon_greedy.init_e - s.epsilon_greedy.final_e) / (s.exploration : ℚ)) =
      s.epsilon_greedy.init_e - s.epsilon_greedy.final_e := by
    field_simp
  refine ⟨?_, ?_, ?_⟩
  · rw [hcf n, hcf (n + 1)]
    have hmono : ((min n s.exploration : ℕ) : ℚ) ≤ ((min (n + 1) s.exploration : ℕ) : ℚ) :=
      Nat.cast_le.mpr (min_le_min (Nat.le_succ n) (le_refl s.exploration))
    nlinarith [mul_nonneg (sub_nonneg.mpr hmono) hd]
  · rw [hcf n]
    have hle : ((min n s.exploration : ℕ) : ℚ) ≤ (s.exploration : ℚ) :=
      Nat.cast_le.mpr (min_le_right n s.exploration)
    nlinarith [mul_le_mul_of_nonneg_right hle hd]
  · rw [epsilon_after, epsilon_decay]
    split
    · right; rfl
    · left; rfl

/-- Witness for the epsilon-schedule theorem at a concrete setting. -/
theorem epsilon_schedule_props_witness :
    epsilon_after sampleEpsSetting 3 ≤ epsilon_after sampleEpsSetting 2 ∧
    sampleEpsSetting.epsilon_greedy.final_e ≤ epsilon_after sampleEpsSetting 2 ∧
    (epsilon_after sampleEpsSetting 3 = epsilon_after sampleEpsSetting 2 ∨
      epsilon_after sampleEpsSetting 3 = epsilon_after sampleEpsSetting 2 -
        (sampleEpsSetting.epsilon_greedy.init_e - sampleEpsSetting.epsilon_greedy.final_e) /
          (sampleEpsSetting.exploration : ℚ)) :=
  epsilon_schedule_props sampleEpsSetting (by norm_num [sampleEpsSetting])
    (by norm_num [sampleEpsSetting]) 2

/-! ## C5: preprocessing on binary frames -/

/-- C5 counterexample: the all-ones frame at the target resolution (128 rows of 72
pixels, every pixel 0/1-valued) is NOT returned unchanged: since the binarization
maps every value `≤ 1` — so in particular the value `1` itself — to `0.0`, the
preprocessor sends it to the all-zero frame. -/
theorem frame_preprocess_counterexample :
    frame_preprocess (List.replicate 128 (List.replicate 72 (1 : ℚ))) =
      List.replicate 128 (List.replicate 72 (0 : ℚ)) ∧
    List.replicate 128 (List.replicate 72 (1 : ℚ)) ≠
      List.replicate 128 (List.replicate 72 (0 : ℚ)) := by
  constructor
  · simp [frame_preprocess, List.map_replicate, binarize]
  · intro h
    have h1 : List.replicate 72 (1 : ℚ) = List.replicate 72 (0 : ℚ) :=
      List.replicate_right_injective (by norm_num) h
    have h2 : (1 : ℚ) = 0 := List.replicate_right_injective (by norm_num) h1
    norm_num at h2

/-- C5 amended: on a frame whose pixels are all 0 or 1, the preprocessor maps every
pixel to `0.0` (value `1` falls in the `≤ 1` branch), so the result is the all-zero
frame of the same shape; the preprocessor returns such a frame unchanged exactly in
the degenerate case that every pixel is already 0. -/
theorem frame_preprocess_on_binary (frame : Frame)
    (h : ∀ row ∈ frame, ∀ v ∈ row, v = 0 ∨ v = 1) :
    frame_preprocess frame = frame.map (fun row => row.map fun _ => (0 : ℚ)) ∧
    ((∀ row ∈ frame, ∀ v ∈ row, v = 0) → frame_preprocess frame = frame) := by
  constructor
  · apply List.map_congr_left
    intro row hrow
    apply List.map_congr_left
    intro v hv
    rcases h row hrow v hv with h0 | h1
    · simp [binarize, h0]
    · simp [binarize, h1]
  · intro hz
    have : ∀ row ∈ frame, row.map binarize = row := by
      intro row hrow
      have : row.map binarize = row.map id := by
        apply List.map_congr_left
        intro v hv
        simp [binarize, hz row hrow v hv]
      simpa using this
    calc frame.map (fun row => row.map binarize) = frame.map id :=
          List.map_congr_left (by simpa using this)
      _ = frame := List.map_id frame

/-- Witness: the concrete binary 2x2 frame `[[0,1],[1,0]]` satisfies the hypothesis
of `frame_preprocess_on_binary`, and the preprocessor flattens it to zeros. -/
theorem frame_preprocess_on_binary_witness :
    frame_preprocess [[0, 1], [1, 0]] =
      ([[0, 1], [1, 0]] : Frame).map (fun row => row.map fun _ => (0 : ℚ)) ∧
    ((∀ row ∈ ([[0, 1], [1, 0]] : Frame), ∀ v ∈ row, v = 0) →
      frame_preprocess [[0, 1], [1, 0]] = [[0, 1], [1, 0]]) :=
  frame_preprocess_on_binary [[0, 1], [1, 0]] (by decide)

/-- C2 counterexample: with `update_target_qnetwork_freq = 2` and two episodes of
length 1, exactly 2 environment steps elapse after the initial copy, yet the target
network is never re-synchronized at that instant (the per-episode counter resets to
0 at each episode start, so it never reaches a multiple of the frequency). -/
theorem target_sync_cadence_counterexample :
    (run_episodes 2 [1, 1] init_sync_state).global -
        (run_episodes 2 [1, 1] init_sync_state).last_sync = 2 ∧
    (run_episodes 2 [1, 1] init_sync_state).last_sync ≠
        (run_episodes 2 [1, 1] init_sync_state).global := by
  decide

/-- C2 amended: the synchronization trigger is the PER-EPISODE step counter (which
line 168 resets to 0 at each episode start), not the number of steps since the last
synchronization: a loop iteration re-synchronizes the target network if and only if
the incremented per-episode counter is a multiple of `update_target_qnetwork_freq`,
and at that instant the target network's parameters become exactly the variable
network's current parameters (a full deep copy); otherwise the target is untouched. -/
theorem target_sync_per_episode_counter {P : Type} (p : ℕ → P) (freq : ℕ)
    (st : SyncState) (h : st.last_sync ≤ st.global) :
    ((sync_step freq st).last_sync = (sync_step freq st).global ↔
      (st.time_step + 1) % freq = 0) ∧
    ((st.time_step + 1) % freq = 0 →
      p ((sync_step freq st).last_sync) = p ((sync_step freq st).global)) ∧
    (¬ (st.time_step + 1) % freq = 0 →
      (sync_step freq st).last_sync = st.last_sync) := by
  refine ⟨⟨fun hsync => ?_, fun hmod => by simp [sync_step, hmod]⟩,
    fun hmod => by simp [sync_step, hmod], fun hmod => by simp [sync_step, hmod]⟩
  by_contra hmod
  simp only [sync_step, if_neg hmod] at hsync
  omega

/-- Witness for the synchronization-cadence theorem at a concrete reachable state:
frequency 2, per-episode counter 1, two global steps taken, last sync at step 0. -/
theorem target_sync_per_episode_counter_witness :
    ((sync_step 2 ⟨2, 1, 0⟩).last_sync = (sync_step 2 ⟨2, 1, 0⟩).global ↔
      (1 + 1) % 2 = 0) ∧
    ((1 + 1) % 2 = 0 →
      (fun n : ℕ => n) ((sync_step 2 ⟨2, 1, 0⟩).last_sync) =
        (fun n : ℕ => n) ((sync_step 2 ⟨2, 1, 0⟩).global)) ∧
    (¬ (1 + 1) % 2 = 0 → (sync_step 2 ⟨2, 1, 0⟩).last_sync = 0) :=
  target_sync_per_episode_counter (fun n : ℕ => n) 2 ⟨2, 1, 0⟩ (by decide)

/-- C1: evaluation of the code's vanilla branch at a failing input.  One
non-terminal transition, `reward = 1`, `gamma = 0.9`, variable network giving
`[3, 0]` and target network giving `[2, 5]` at the next state: the code produces
`1 + 0.9 * 3 = 3.7` (maximum over the VARIABLE network, line 205), while the
formula stated by the spec — and by the code's own comment at lines 213-214,
with the target network line 160 says is used to compute this target — gives
`1 + 0.9 * 5 = 5.5`. -/
theorem vanilla_target_reads_variable_net :
    vanilla_y (9/10) (fun _ : ℕ => ((3 : ℚ), (0 : ℚ))) (fun _ : ℕ => ((2 : ℚ), (5 : ℚ)))
        [⟨0, [1, 0], 1, 7, false⟩] = [37/10] ∧
    vanilla_y_spec (9/10) (fun _ : ℕ => ((2 : ℚ), (5 : ℚ)))
        [⟨0, [1, 0], 1, 7, false⟩] = [11/2] ∧
    (37/10 : ℚ) ≠ 11/2 := by
  refine ⟨?_, ?_, by norm_num⟩ <;>
    simp [vanilla_y, vanilla_y_spec, qmax] <;> norm_num [max_def]

/-- C7: in the Double DQN branch, the target of a non-terminal minibatch entry is
`reward + gamma * target_net(next_state)[a*]` where `a*` is the action the VARIABLE
network ranks highest — here action 0, under the hypothesis that the variable
network strictly prefers it — regardless of the target network's own maximum. -/
theorem double_dqn_target {σ : Type} [Inhabited σ] (gamma : ℚ)
    (variable_net target_net : σ → QValues) (mb : List (Transition σ)) (i : ℕ)
    (hi : i < mb.length)
    (hterm : (mb.getD i default).terminal = false)
    (hrank : (variable_net (mb.getD i default).next_state).2 <
      (variable_net (mb.getD i default).next_state).1) :
    (double_y gamma variable_net target_net mb).getD i 0 =
      (mb.getD i default).reward +
        gamma * (target_net (mb.getD i default).next_state).1 := by
  have hlen : i < (double_y gamma variable_net target_net mb).length := by
    simpa [double_y] using hi
  rw [List.getD_eq_getElem _ _ hlen, List.getD_eq_getElem _ _ hi] at *
  simp only [double_y, List.getElem_map]
  rw [if_neg (by simp [hterm])]
  have hargmax : qargmax (variable_net mb[i].next_state) = 0 := by
    unfold qargmax
    rw [if_neg (asymm hrank)]
  rw [hargmax]
  rfl

/-- Witness: the concrete Double-DQN scenario of the spec.  The variable network
ranks action 0 highest (`[3, 0]`), the target network's next-state Q-values are
`[2, 5]`, `reward = 1`, `gamma = 0.9`, non-terminal: the target is
`1 + 0.9 * 2 = 2.8` — the target network's value at the variable network's argmax,
not the target network's own maximum `5`. -/
theorem double_dqn_target_witness :
    (double_y (9/10) (fun _ : ℕ => ((3 : ℚ), (0 : ℚ))) (fun _ : ℕ => ((2 : ℚ), (5 : ℚ)))
        [⟨0, [1, 0], 1, 7, false⟩]).getD 0 0 = 14/5 := by
  have h := double_dqn_target (9/10) (fun _ : ℕ => ((3 : ℚ), (0 : ℚ)))
    (fun _ : ℕ => ((2 : ℚ), (5 : ℚ))) [⟨0, [1, 0], 1, 7, false⟩] 0
    (by decide) (by decide) (by norm_num)
  rw [h]
  norm_num

/-- C4 counterexample: a checkpoint that carries only the legacy field
(`best_time_step = 7`, no `time_step`) yields fitness baseline `0`, not the legacy
value `7`, and the (total) initialization proceeds with that default instead of
failing — the legacy field is never consulted and the missing-field case is not
fatal. -/
theorem resume_baseline_counterexample :
    (dqn_init resumeSetting ⟨none, none, none, none, some 7⟩).best_time_step = 0 ∧
    (0 : ℚ) ≠ 7 := by
  constructor
  · rfl
  · norm_num

/-- C4 amended: on resume the fitness baseline is exactly
`checkpoint.get('time_step', 0)`: the `time_step` field when present, the default
`0` otherwise; the legacy `best_time_step` field has no influence whatsoever on the
initialization, and a checkpoint lacking both fields is not treated as fatal — the
run proceeds with baseline `0`. -/
theorem resume_baseline_only_time_step (s : TrainingSetting) (c : Checkpoint)
    (h : s.resume = true) :
    (dqn_init s c).best_time_step = c.time_step.getD 0 ∧
    (∀ v : Option ℚ, dqn_init s { c with best_time_step := v } = dqn_init s c) ∧
    (c.time_step = none → c.best_time_step = none →
      (dqn_init s c).best_time_step = 0) := by
  refine ⟨by simp [dqn_init, h], fun v => by simp [dqn_init, h], fun ht _ => ?_⟩
  simp [dqn_init, h, ht]

/-- Witness for the resume-baseline theorem at a concrete empty checkpoint. -/
theorem resume_baseline_only_time_step_witness :
    (dqn_init resumeSetting ⟨none, none, none, none, none⟩).best_time_step =
      (Option.getD (none : Option ℚ) 0) ∧
    (∀ v : Option ℚ,
      dqn_init resumeSetting { (⟨none, none, none, none, none⟩ : Checkpoint) with
        best_time_step := v } = dqn_init resumeSetting ⟨none, none, none, none, none⟩) ∧
    ((none : Option ℚ) = none → (none : Option ℚ) = none →
      (dqn_init resumeSetting ⟨none, none, none, none, none⟩).best_time_step = 0) :=
  resume_baseline_only_time_step resumeSetting ⟨none, none, none, none, none⟩ rfl

/-- C9: for a resumed run, the working epsilon is initialized to the setting's
`init_e` (line 164 runs unconditionally after the resume block), and the `epsilon`
field stored in the loaded checkpoint is never read: changing it changes nothing
about the initialized run state. -/
theorem resume_ignores_saved_epsilon (s : TrainingSetting) (c : Checkpoint)
    (h : s.resume = true) :
    (dqn_init s c).epsilon = s.epsilon_greedy.init_e ∧
    (∀ e : Option ℚ, dqn_init s { c with epsilon := e } = dqn_init s c) := by
  refine ⟨?_, fun e => ?_⟩ <;> simp [dqn_init, h]

/-- Witness for the resumed-epsilon theorem at a concrete checkpoint that stores a
saved epsilon of `1/2`: the run still starts at `init_e`. -/
theorem resume_ignores_saved_epsilon_witness :
    (dqn_init resumeSetting ⟨some 40, some (1/2), some NetStruct.NORMAL, some 9, none⟩).epsilon =
      resumeSetting.epsilon_greedy.init_e ∧
    (∀ e : Option ℚ,
      dqn_init resumeSetting { (⟨some 40, some (1/2), some NetStruct.NORMAL, some 9, none⟩ :
        Checkpoint) with epsilon := e } =
      dqn_init resumeSetting ⟨some 40, some (1/2), some NetStruct.NORMAL, some 9, none⟩) :=
  resume_ignores_saved_epsilon resumeSetting
    ⟨some 40, some (1/2), some NetStruct.NORMAL, some 9, none⟩ rfl

/-- The final best value only improves on the incoming baseline. -/
theorem le_run_promotions_fst (l : List ℚ) (best : ℚ) :
    best ≤ (run_promotions best l).1 := by
  induction l generalizing best with
  | nil => simp [run_promotions]
  | cons avg rest ih =>
    rw [run_promotions]
    split
    · exact le_trans (le_of_lt (by assumption)) (ih avg)
    · exact ih best

/-- Prepending the incoming baseline, the promoted fitness values form a strictly
increasing chain. -/
theorem run_promotions_chain (l : List ℚ) (best : ℚ) :
    List.Chain' (fun x y => x < y) (best :: (run_promotions best l).2) := by
  induction l generalizing best with
  | nil => simp [run_promotions]
  | cons avg rest ih =>
    rw [run_promotions]
    split
    · exact List.Chain'.cons (by assumption) (ih avg)
    · exact ih best

/-- Splitting a run of evaluations: the second part starts from the best value the
first part produced. -/
theorem run_promotions_append (l₁ l₂ : List ℚ) (best : ℚ) :
    run_promotions best (l₁ ++ l₂) =
      ((run_promotions (run_promotions best l₁).1 l₂).1,
        (run_promotions best l₁).2 ++ (run_promotions (run_promotions best l₁).1 l₂).2) := by
  induction l₁ generalizing best with
  | nil => simp [run_promotions]
  | cons avg rest ih =>
    rw [List.cons_append, run_promotions, run_promotions]
    split
    · rw [ih avg]
      simp
    · exact ih best

/-- C6 amended: along any run of evaluation results `l₁ ++ avg :: l₂` starting from
baseline `b` (`0.` for a fresh run, the loaded fitness on resume): the promoted
fitness values, with the baseline prepended, are strictly increasing (hence
`best_time_step` is non-decreasing and each promoted value beats everything
promoted before it); the running best never decreases when the run continues; and
the evaluation `avg` is promoted at its position IF AND ONLY IF it strictly exceeds
the best value so far — the maximum of the baseline and all previously promoted
values — not merely every previously promoted value. -/
theorem promotion_invariants (b avg : ℚ) (l₁ l₂ : List ℚ) :
    List.Chain' (fun x y => x < y) (b :: (run_promotions b (l₁ ++ avg :: l₂)).2) ∧
    (run_promotions b l₁).1 ≤ (run_promotions b (l₁ ++ avg :: l₂)).1 ∧
    (run_promotions b (l₁ ++ avg :: l₂)).2 =
      (run_promotions b l₁).2 ++
        (if (run_promotions b l₁).1 < avg
          then avg :: (run_promotions avg l₂).2
          else (run_promotions (run_promotions b l₁).1 l₂).2) := by
  refine ⟨run_promotions_chain _ b, ?_, ?_⟩
  · rw [run_promotions_append l₁ (avg :: l₂) b]
    exact le_run_promotions_fst (avg :: l₂) (run_promotions b l₁).1
  · rw [run_promotions_append l₁ (avg :: l₂) b]
    by_cases hlt : (run_promotions b l₁).1 < avg
    · simp only [run_promotions, if_pos hlt]
    · simp only [run_promotions, if_neg hlt]

/-- C6 counterexample: a fresh run (baseline `best_time_step = 0.`, line 86) whose
first evaluation yields fitness `0` promotes nothing — `0 > 0` is false at line
290 — even though `0` strictly exceeds every previously promoted fitness value
(there are none).  So "promoted ⟸ exceeds every previously promoted value" fails:
promotion additionally requires beating the baseline. -/
theorem promotion_iff_counterexample :
    (run_promotions 0 [(0 : ℚ)]).2 = [] ∧
    (∀ x ∈ (run_promotions (0 : ℚ) []).2, x < 0) := by
  constructor
  · simp [run_promotions]
  · intro x hx
    simp [run_promotions] at hx

/-- The step counter accumulated over one episode is that episode's length. -/
theorem run_eval_episode_time_step (stack_size : ℕ) (blank : Frame) (ep : List Frame) :
    (run_eval_episode stack_size blank ep).time_step = ep.length := by
  suffices h : ∀ (fs : List Frame) (a : FlappyAgent),
      (fs.foldl (fun a f => ⟨a.time_step + 1, push_frame a.current_state f⟩) a).time_step =
        a.time_step + fs.length by
    simpa [run_eval_episode] using h ep ⟨0, agent_init_state stack_size blank⟩
  intro fs
  induction fs with
  | nil => simp
  | cons f rest ih =>
    intro a
    rw [List.foldl_cons, ih]
    simp
    omega

/-- The collected per-episode step counts are the episode lengths, irrespective of
the incoming agent state. -/
theorem evaluate_loop_counts (stack_size : ℕ) (blank : Frame)
    (episodes : List (List Frame)) (a : FlappyAgent) :
    (evaluate_loop stack_size blank a episodes).1 = episodes.map List.length := by
  induction episodes generalizing a with
  | nil => simp [evaluate_loop]
  | cons ep rest ih =>
    rw [evaluate_loop]
    simp [ih, run_eval_episode_time_step]

/-- C8: the evaluation protocol returns the plain arithmetic mean of the
per-episode survival-step counts of the episodes it runs — the sorting step does
not change sum or length, and no trimming happens — and the configurable episode
count defaults to `test_episode_num = 2`. -/
theorem evaluate_plain_mean (stack_size : ℕ) (blank : Frame) (agent : FlappyAgent)
    (episodes : List (List Frame)) :
    (evaluate_avg_time_step stack_size blank agent episodes).1 =
      ((episodes.map List.length).sum : ℚ) / (episodes.length : ℚ) ∧
    test_episode_num = 2 := by
  refine ⟨?_, rfl⟩
  have hcounts := evaluate_loop_counts stack_size blank episodes agent
  have hperm := List.mergeSort_perm
    (evaluate_loop stack_size blank agent episodes).1 (fun x y => decide (x ≤ y))
  rw [hcounts] at hperm
  have hfst : (evaluate_avg_time_step stack_size blank agent episodes).1 =
      ((((episodes.map List.length).mergeSort (fun x y => decide (x ≤ y))).sum : ℕ) : ℚ) /
        ((((episodes.map List.length).mergeSort (fun x y => decide (x ≤ y))).length : ℕ) : ℚ) := by
    simp only [evaluate_avg_time_step, hcounts]
  rw [hfst, hperm.sum_eq, hperm.length_eq]
  simp

/-- Sliding `fs` frames into a nonempty stack leaves the last `stack.length` of
`stack ++ fs`. -/
theorem foldl_push_frame (fs : List Frame) (stack : List Frame) (t : ℕ)
    (h : stack ≠ []) :
    fs.foldl (fun a f => ⟨a.time_step + 1, push_frame a.current_state f⟩)
        (⟨t, stack⟩ : FlappyAgent) =
      ⟨t + fs.length, (stack ++ fs).drop fs.length⟩ := by
  induction fs generalizing stack t with
  | nil => simp
  | cons f rest ih =>
    rw [List.foldl_cons]
    have hne : push_frame stack f ≠ [] := by
      simp [push_frame]
    rw [ih (push_frame stack f) (t + 1) hne]
    rcases stack with _ | ⟨x, xs⟩
    · exact absurd rfl h
    · congr 1
      · simp only [List.length_cons]
        omega
      · simp [push_frame, List.drop_succ_cons, List.append_assoc]

/-- C10: the evaluation protocol overwrites the passed agent.  For any nonempty
episode list, the agent state the evaluation leaves behind is independent of the
agent state passed in; its step counter has been reset and advanced to the LAST
evaluation episode's survival count, and its stacked-frame state is the sliding
window of the last episode's observation frames over the freshly initialized
stack — so the training loop, which shares this agent, continues from the last
evaluation episode's observation stack rather than from its pre-evaluation state. -/
theorem evaluate_overwrites_agent (stack_size : ℕ) (blank : Frame)
    (a a₂ : FlappyAgent) (l : List (List Frame)) (ep : List Frame)
    (h : 0 < stack_size) :
    (evaluate_avg_time_step stack_size blank a (l ++ [ep])).2 =
      (evaluate_avg_time_step stack_size blank a₂ (l ++ [ep])).2 ∧
    (evaluate_avg_time_step stack_size blank a (l ++ [ep])).2.time_step = ep.length ∧
    (evaluate_avg_time_step stack_size blank a (l ++ [ep])).2.current_state =
      (agent_init_state stack_size blank ++ ep).drop ep.length := by
  have hlast : ∀ (a' : FlappyAgent),
      (evaluate_loop stack_size blank a' (l ++ [ep])).2 =
        run_eval_episode stack_size blank ep := by
    intro a'
    induction l generalizing a' with
    | nil => simp [evaluate_loop]
    | cons e rest ih => rw [List.cons_append, evaluate_loop]; exact ih _
  have hne : agent_init_state stack_size blank ≠ [] := by
    simp [agent_init_state]
    omega
  have hrun : run_eval_episode stack_size blank ep =
      ⟨ep.length, (agent_init_state stack_size blank ++ ep).drop ep.length⟩ := by
    rw [run_eval_episode, foldl_push_frame ep _ 0 hne]
    simp
  refine ⟨?_, ?_, ?_⟩ <;>
    simp only [evaluate_avg_time_step, hlast, hrun]

/-- Witness for the evaluation-overwrite theorem: stack size 1, one evaluation
episode with a single observation frame `[[1]]`, applied to two different incoming
agents. -/
theorem evaluate_overwrites_agent_witness :
    (evaluate_avg_time_step 1 [[0]] ⟨3, []⟩ ([] ++ [[[[1]]]])).2 =
      (evaluate_avg_time_step 1 [[0]] ⟨0, [[[5]]]⟩ ([] ++ [[[[1]]]])).2 ∧
    (evaluate_avg_time_step 1 [[0]] ⟨3, []⟩ ([] ++ [[[[1]]]])).2.time_step =
      ([[[1]]] : List Frame).length ∧
    (evaluate_avg_time_step 1 [[0]] ⟨3, []⟩ ([] ++ [[[[1]]]])).2.current_state =
      (agent_init_state 1 [[0]] ++ [[[1]]]).drop ([[[1]]] : List Frame).length :=
  evaluate_overwrites_agent 1 [[0]] ⟨3, []⟩ ⟨0, [[[5]]]⟩ [] [[[1]]] (by norm_num)
